import Mathlib

/-!
Formal model of the salat3d repository: the sun-position mathematics
(`src/app/components/sunMath.ts`), the `SunPath` animation system
(`src/src/World/systems/SunPath.ts`), and the first-person player
movement and collision-resolution subsystem described in the design
specification (capsule collider, iterative collision resolver, motion
integrator).  Vectors are triples of real numbers; times are real
numbers of milliseconds since the epoch; the external `suncalc` library
is modelled as an opaque function producing altitude/azimuth pairs.
-/

/-- A 3D vector, as the components (x, y, z). -/
abbrev Vec3 : Type := ℝ × ℝ × ℝ

/-- Euclidean norm of a vector. -/
noncomputable def norm3 (v : Vec3) : ℝ :=
  Real.sqrt (v.1 ^ 2 + v.2.1 ^ 2 + v.2.2 ^ 2)

/-- Euclidean distance between two points. -/
noncomputable def dist3 (p q : Vec3) : ℝ := norm3 (p - q)

/-- Normalization of a vector (zero when the vector is zero). -/
noncomputable def normalize3 (v : Vec3) : Vec3 := (1 / norm3 v) • v

/-- Cross product of two vectors. -/
def cross3 (u v : Vec3) : Vec3 :=
  (u.2.1 * v.2.2 - u.2.2 * v.2.1,
   u.2.2 * v.1 - u.1 * v.2.2,
   u.1 * v.2.1 - u.2.1 * v.1)

theorem norm3_nonneg (v : Vec3) : 0 ≤ norm3 v := Real.sqrt_nonneg _

theorem dist3_nonneg (p q : Vec3) : 0 ≤ dist3 p q := Real.sqrt_nonneg _

/-! ## Sun-position mathematics (`src/app/components/sunMath.ts`) -/

/-- Configuration record from `sunMath.ts`. -/
structure SunConfig where
  latitude : ℝ
  longitude : ℝ
  radius : ℝ
  northOffset : ℝ

/-- The altitude/azimuth pair returned by the external `suncalc`
library's `getPosition`; modelled as opaque input data. -/
structure SunAngles where
  altitude : ℝ
  azimuth : ℝ

/-- `rotateAroundY` from `sunMath.ts`: rotate a point about the y-axis
by an angle given in degrees. -/
noncomputable def rotateAroundY (point : Vec3) (degrees : ℝ) : Vec3 :=
  let angle := degrees * Real.pi / 180
  let c := Real.cos angle
  let s := Real.sin angle
  (point.1 * c - point.2.2 * s, point.2.1, point.1 * s + point.2.2 * c)

/-- `computeSunPosition` from `sunMath.ts`, with the `suncalc` result for
the requested date supplied as `pos`. -/
noncomputable def computeSunPosition (pos : SunAngles) (config : SunConfig) : Vec3 :=
  let distance := config.radius
  let horizontal := distance * Real.cos pos.altitude
  let az := pos.azimuth + Real.pi
  let x := horizontal * Real.sin az
  let z := horizontal * Real.cos az
  let y := distance * Real.sin pos.altitude
  rotateAroundY (x, y, z) config.northOffset

/-- `generateSunPath` from `sunMath.ts`.  `getPos` models
`(date) => SunCalc.getPosition(date, latitude, longitude)`, and
`startOfDay` the millisecond timestamp of local midnight of the given
date.  Sample times are `startOfDay + minutesPerSegment * index * 60 * 1000`
milliseconds exactly as in the source. -/
noncomputable def generateSunPath (getPos : ℝ → SunAngles) (startOfDay : ℝ)
    (config : SunConfig) (segments : ℕ) : List Vec3 :=
  (List.range (segments + 1)).map fun (index : ℕ) =>
    computeSunPosition
      (getPos (startOfDay + 1440 / (segments : ℝ) * (index : ℕ) * 60 * 1000)) config

theorem rotateAroundY_sq_sum (p : Vec3) (d : ℝ) :
    (rotateAroundY p d).1 ^ 2 + (rotateAroundY p d).2.1 ^ 2 + (rotateAroundY p d).2.2 ^ 2
      = p.1 ^ 2 + p.2.1 ^ 2 + p.2.2 ^ 2 := by
  have h := Real.sin_sq_add_cos_sq (d * Real.pi / 180)
  simp only [rotateAroundY]
  linear_combination (p.1 ^ 2 + p.2.2 ^ 2) * h

theorem norm3_rotateAroundY (p : Vec3) (d : ℝ) :
    norm3 (rotateAroundY p d) = norm3 p := by
  unfold norm3
  rw [rotateAroundY_sq_sum]

/-- Claim C8: for every date (entering through the suncalc
altitude/azimuth pair) and every configuration with nonnegative radius,
the point returned by `computeSunPosition` lies on the sphere of radius
`config.radius` about the origin: its Euclidean norm equals
`config.radius` exactly, over real arithmetic. -/
theorem computeSunPosition_norm (pos : SunAngles) (config : SunConfig)
    (h : 0 ≤ config.radius) : norm3 (computeSunPosition pos config) = config.radius := by
  unfold computeSunPosition
  rw [norm3_rotateAroundY]
  unfold norm3
  have hs := Real.sin_sq_add_cos_sq (pos.azimuth + Real.pi)
  have ha := Real.sin_sq_add_cos_sq pos.altitude
  have hsum :
      (config.radius * Real.cos pos.altitude * Real.sin (pos.azimuth + Real.pi)) ^ 2
        + (config.radius * Real.sin pos.altitude) ^ 2
        + (config.radius * Real.cos pos.altitude * Real.cos (pos.azimuth + Real.pi)) ^ 2
        = config.radius ^ 2 := by
    linear_combination (config.radius ^ 2 * Real.cos pos.altitude ^ 2) * hs
      + config.radius ^ 2 * ha
  simp only
  rw [hsum]
  exact Real.sqrt_sq h

/-- A concrete suncalc stand-in for witnesses. -/
noncomputable def sunAnglesW : SunAngles := ⟨0, 0⟩

/-- A concrete configuration for witnesses. -/
def sunConfigW : SunConfig := ⟨0, 0, 2, 0⟩

theorem computeSunPosition_norm_witness :
    0 ≤ (2 : ℝ) ∧ norm3 (computeSunPosition sunAnglesW sunConfigW) = 2 :=
  ⟨by norm_num, computeSunPosition_norm sunAnglesW sunConfigW (by show (0 : ℝ) ≤ 2; norm_num)⟩

/-- Claim C9: for every date and configuration and every positive
`segments`, `generateSunPath` returns exactly `segments + 1` points; the
`i`-th point is `computeSunPosition` evaluated at local midnight plus
`i * (1440 / segments)` minutes, so the first sample is midnight and the
last is midnight plus 24 hours (1440 minutes). -/
theorem generateSunPath_samples (getPos : ℝ → SunAngles) (startOfDay : ℝ)
    (config : SunConfig) (n : ℕ) (hn : 0 < n) :
    (generateSunPath getPos startOfDay config n).length = n + 1 ∧
    (∀ i : ℕ, i < n + 1 →
      (generateSunPath getPos startOfDay config n)[i]? =
        some (computeSunPosition
          (getPos (startOfDay + 1440 / (n : ℝ) * (i : ℝ) * 60 * 1000)) config)) ∧
    startOfDay + 1440 / (n : ℝ) * ((n : ℝ)) * 60 * 1000 = startOfDay + 1440 * 60 * 1000 := by
  have hne : (n : ℝ) ≠ 0 := Nat.cast_ne_zero.mpr hn.ne'
  refine ⟨?_, ?_, ?_⟩
  · simp only [generateSunPath, List.length_map, List.length_range]
  · intro i hi
    simp only [generateSunPath, List.getElem?_map, List.getElem?_range, hi]
    rfl
  · field_simp

/-- A concrete suncalc stand-in for the path witness. -/
noncomputable def getPosW : ℝ → SunAngles := fun t => ⟨t, t⟩

theorem generateSunPath_samples_witness :
    0 < 2 ∧
    ((generateSunPath getPosW 0 sunConfigW 2).length = 2 + 1 ∧
    (∀ i : ℕ, i < 2 + 1 →
      (generateSunPath getPosW 0 sunConfigW 2)[i]? =
        some (computeSunPosition
          (getPosW (0 + 1440 / ((2 : ℕ) : ℝ) * (i : ℝ) * 60 * 1000)) sunConfigW)) ∧
    (0 : ℝ) + 1440 / ((2 : ℕ) : ℝ) * (((2 : ℕ) : ℝ)) * 60 * 1000 = 0 + 1440 * 60 * 1000) :=
  ⟨by norm_num, generateSunPath_samples getPosW 0 sunConfigW 2 (by norm_num)⟩

/-! ## The `SunPath` system (`src/src/World/systems/SunPath.ts`) -/

/-- The GUI parameter record `SunPathParams` from `SunPath.ts`. -/
structure SunPathParams where
  hour : ℤ
  minute : ℤ
  day : ℤ
  month : ℤ
  latitude : ℝ
  longitude : ℝ
  radius : ℝ
  showAnalemmas : Bool
  showSunSurface : Bool
  showSunDayPath : Bool
  northOffset : ℝ
  animateTime : Bool
  timeSpeed : ℝ
  shadowBias : ℝ
  baseY : ℝ
  fajrAngle : ℝ
  ishaAngle : ℝ

/-- The JavaScript `Date` operations used by `SunPath.tick`, modelled as
opaque functions on millisecond timestamps (they depend on the host
timezone, which is outside the program). -/
structure DateLib where
  getMinutes : ℝ → ℤ
  getHours : ℝ → ℤ
  getDate : ℝ → ℤ
  getMonth : ℝ → ℤ
  setHours : ℝ → ℤ → ℝ

/-- Observable state of a `SunPath` object: the GUI params, the stored
timestamp, the sun sphere/light position, the drawn day path, and the
timestamp last rendered to the time/prayer display. -/
structure SunPath where
  params : SunPathParams
  date : ℝ
  sunPos : Vec3
  dayPath : List Vec3
  infoDate : ℝ

/-- `SunPath.getSunPosition`: the scene position of the sun for a given
timestamp (source lines 96-102; note x uses cos of azimuth and z uses
sin, unlike `sunMath.ts`). -/
noncomputable def SunPath.getSunPosition (getPos : ℝ → SunAngles)
    (params : SunPathParams) (date : ℝ) : Vec3 :=
  let sp := getPos date
  (params.radius * Real.cos sp.altitude * Real.cos sp.azimuth,
   params.radius * Real.sin sp.altitude,
   params.radius * Real.cos sp.altitude * Real.sin sp.azimuth)

/-- The day path drawn by `SunPath.drawSunDayPath`: one sun position per
hour 0..23 of the stored date (empty when hidden). -/
noncomputable def SunPath.dayPathOf (getPos : ℝ → SunAngles) (dl : DateLib)
    (params : SunPathParams) (date : ℝ) : List Vec3 :=
  if params.showSunDayPath then
    (List.range 24).map fun h => SunPath.getSunPosition getPos params (dl.setHours date h)
  else []

/-- `SunPath.tick` (source lines 257-269): when `params.animateTime` is
set, advance the stored date by `delta * 1000 * timeSpeed` milliseconds,
refresh the minute/hour/day/month params from the new date, and redraw
the sun position, the day path and the time/prayer display.  When
`animateTime` is not set the body is skipped entirely. -/
noncomputable def SunPath.tick (getPos : ℝ → SunAngles) (dl : DateLib)
    (sp : SunPath) (delta : ℝ) : SunPath :=
  if sp.params.animateTime then
    let time := sp.date
    let date2 := time + delta * 1000 * sp.params.timeSpeed
    let params2 : SunPathParams :=
      { sp.params with
        minute := dl.getMinutes date2
        hour := dl.getHours date2
        day := dl.getDate date2
        month := dl.getMonth date2 }
    { params := params2
      date := date2
      sunPos := SunPath.getSunPosition getPos params2 date2
      dayPath := SunPath.dayPathOf getPos dl params2 date2
      infoDate := date2 }
  else sp

/-- Claim C10: for every delta, calling `SunPath.tick` when
`params.animateTime` is false changes nothing: the stored date, all
params fields, and the sun/scene state are exactly as before the call. -/
theorem sunPath_tick_frozen (getPos : ℝ → SunAngles) (dl : DateLib)
    (sp : SunPath) (delta : ℝ) (h : sp.params.animateTime = false) :
    SunPath.tick getPos dl sp delta = sp := by
  unfold SunPath.tick
  rw [h]
  simp

/-- A concrete `DateLib` for the tick witness. -/
def dateLibW : DateLib := ⟨fun _ => 0, fun _ => 0, fun _ => 1, fun _ => 0, fun t _ => t⟩

/-- A concrete frozen `SunPath` state for the tick witness. -/
def sunPathW : SunPath :=
  { params :=
      { hour := 7, minute := 0, day := 1, month := 1, latitude := 0, longitude := 0
        radius := 40, showAnalemmas := false, showSunSurface := false
        showSunDayPath := true, northOffset := 0, animateTime := false
        timeSpeed := 1000, shadowBias := 0, baseY := 0, fajrAngle := 18, ishaAngle := 18 }
    date := 0
    sunPos := (0, 0, 0)
    dayPath := []
    infoDate := 0 }

theorem sunPath_tick_frozen_witness :
    SunPath.tick getPosW dateLibW sunPathW 5 = sunPathW :=
  sunPath_tick_frozen getPosW dateLibW sunPathW 5 rfl

/-! ## Collision geometry

The first-person player subsystem (`systems/player.ts`) is referenced by
the main module but its source is not part of this tree, so the collision
resolver and motion integrator below are modelled from the design
specification (capsule collider against static triangles, iterative
query-and-push resolution, floor classification, gravity/jump/damping
integration with abyss recovery). -/

/-- A world triangle, by its three corner points. -/
structure Triangle where
  a : Vec3
  b : Vec3
  c : Vec3

/-- Modelled from the spec: a degenerate (zero-area) triangle, one whose
edge vectors have zero cross product. -/
def degenerate (t : Triangle) : Prop := cross3 (t.b - t.a) (t.c - t.a) = 0

/-- The player capsule: a segment from `bottom` to `top` plus a radius. -/
structure Capsule where
  top : Vec3
  bottom : Vec3
  radius : ℝ

/-- The points of a segment, as the convex hull of its endpoints. -/
def segPts (p1 p2 : Vec3) : Set Vec3 := convexHull ℝ {p1, p2}

/-- The points of a triangle, as the convex hull of its corners. -/
def triPts (t : Triangle) : Set Vec3 := convexHull ℝ {t.a, t.b, t.c}

theorem dist3_eq (p q : Vec3) :
    dist3 p q = Real.sqrt
      ((p.1 - q.1) ^ 2 + (p.2.1 - q.2.1) ^ 2 + (p.2.2 - q.2.2) ^ 2) := rfl

theorem exists_closestPair (t : Triangle) (p1 p2 : Vec3) :
    ∃ pq : Vec3 × Vec3, pq ∈ (segPts p1 p2) ×ˢ (triPts t) ∧
      ∀ rs ∈ (segPts p1 p2) ×ˢ (triPts t), dist3 pq.1 pq.2 ≤ dist3 rs.1 rs.2 := by
  have hc : IsCompact ((segPts p1 p2) ×ˢ (triPts t)) :=
    IsCompact.prod (Set.toFinite {p1, p2}).isCompact_convexHull
      (Set.toFinite {t.a, t.b, t.c}).isCompact_convexHull
  have hne : ((segPts p1 p2) ×ˢ (triPts t)).Nonempty := by
    refine ⟨(p1, t.a), ?_, ?_⟩
    · exact subset_convexHull ℝ _ (Set.mem_insert _ _)
    · exact subset_convexHull ℝ _ (Set.mem_insert _ _)
  have hcont : Continuous fun rs : Vec3 × Vec3 => dist3 rs.1 rs.2 := by
    have : (fun rs : Vec3 × Vec3 => dist3 rs.1 rs.2) = fun rs : Vec3 × Vec3 =>
        Real.sqrt ((rs.1.1 - rs.2.1) ^ 2 + (rs.1.2.1 - rs.2.2.1) ^ 2
          + (rs.1.2.2 - rs.2.2.2) ^ 2) := by
      funext rs
      rw [dist3_eq]
    rw [this]
    fun_prop
  obtain ⟨pq, hmem, hmin⟩ := hc.exists_isMinOn hne hcont.continuousOn
  exact ⟨pq, hmem, fun rs hrs => hmin hrs⟩

/-- Modelled from the spec: the "closest point on the triangle to the
capsule's segment" computation, as a choice of a distance-minimizing pair
(point on the segment, point on the triangle). -/
noncomputable def closestPair (t : Triangle) (p1 p2 : Vec3) : Vec3 × Vec3 :=
  (exists_closestPair t p1 p2).choose

theorem closestPair_mem (t : Triangle) (p1 p2 : Vec3) :
    (closestPair t p1 p2).1 ∈ segPts p1 p2 ∧ (closestPair t p1 p2).2 ∈ triPts t := by
  have h := (exists_closestPair t p1 p2).choose_spec.1
  exact ⟨h.1, h.2⟩

theorem closestPair_min (t : Triangle) (p1 p2 : Vec3) :
    ∀ p ∈ segPts p1 p2, ∀ q ∈ triPts t,
      dist3 (closestPair t p1 p2).1 (closestPair t p1 p2).2 ≤ dist3 p q := by
  intro p hp q hq
  exact (exists_closestPair t p1 p2).choose_spec.2 (p, q) ⟨hp, hq⟩

/-- A contact: unit penetration normal and depth. -/
structure Contact where
  normal : Vec3
  depth : ℝ

open Classical in
/-- Modelled from the spec: the penetration test of the resolver.  A
degenerate triangle is skipped; otherwise a contact is recorded when the
segment-to-triangle distance is below the capsule radius, with normal
the normalized difference (segment point minus triangle point) and depth
`radius - distance`. -/
noncomputable def contactOf (cap : Capsule) (t : Triangle) : Option Contact :=
  if degenerate t then none
  else
    let pq := closestPair t cap.top cap.bottom
    let d := dist3 pq.1 pq.2
    if d < cap.radius then some ⟨normalize3 (pq.1 - pq.2), cap.radius - d⟩ else none

/-- Modelled from the spec: collect the contacts of the current candidate
triangle set against the capsule. -/
noncomputable def collectContacts (cap : Capsule) (tris : List Triangle) : List Contact :=
  tris.filterMap (contactOf cap)

/-- Sum of the correction vectors (normal times depth) of a contact set. -/
noncomputable def correctionSum (cts : List Contact) : Vec3 :=
  (cts.map fun ct => ct.depth • ct.normal).sum

/-- Translate the capsule along the summed correction vector. -/
noncomputable def pushCapsule (cap : Capsule) (cts : List Contact) : Capsule :=
  ⟨cap.top + correctionSum cts, cap.bottom + correctionSum cts, cap.radius⟩

/-- The fixed bound on query-and-push cycles of the resolver. -/
def MAX_RESOLVE_ITERS : ℕ := 5

/-- Resolution tolerance: the non-penetration property is stated up to
this small numerical tolerance. -/
noncomputable def EPS : ℝ := 1 / 1000

/-- Modelled from the spec: the bounded query-and-push loop.  Each cycle
collects the contacts of the candidate set; if there are none the loop
has converged, otherwise the capsule is pushed along the summed
correction vectors and the cycle repeats, up to the fuel bound; at fuel
exhaustion the best achieved correction is returned together with the
contacts of the final executed iteration. -/
noncomputable def resolveFuel (tris : List Triangle) :
    ℕ → Capsule → List Contact → Capsule × List Contact
  | 0, cap, last => (cap, last)
  | n + 1, cap, _ =>
    if (collectContacts cap tris).isEmpty then (cap, [])
    else resolveFuel tris n (pushCapsule cap (collectContacts cap tris))
      (collectContacts cap tris)

/-- Modelled from the spec: `resolve(capsule, staticGeometry) ->
(correctedCapsule, contacts)`. -/
noncomputable def resolve (tris : List Triangle) (cap : Capsule) : Capsule × List Contact :=
  resolveFuel tris MAX_RESOLVE_ITERS cap []

/-- Number of query-and-push cycles executed by the bounded loop. -/
noncomputable def resolveStepsFuel (tris : List Triangle) : ℕ → Capsule → ℕ
  | 0, _ => 0
  | n + 1, cap =>
    if (collectContacts cap tris).isEmpty then 1
    else 1 + resolveStepsFuel tris n (pushCapsule cap (collectContacts cap tris))

/-- Number of query-and-push cycles executed by `resolve`. -/
noncomputable def resolveSteps (tris : List Triangle) (cap : Capsule) : ℕ :=
  resolveStepsFuel tris MAX_RESOLVE_ITERS cap

/-- The (attained) minimum distance between the capsule segment and a
triangle. -/
noncomputable def segTriDist (cap : Capsule) (t : Triangle) : ℝ :=
  dist3 (closestPair t cap.top cap.bottom).1 (closestPair t cap.top cap.bottom).2

theorem resolveStepsFuel_le (tris : List Triangle) :
    ∀ n cap, resolveStepsFuel tris n cap ≤ n := by
  intro n
  induction n with
  | zero => intro cap; simp [resolveStepsFuel]
  | succ m ih =>
    intro cap
    unfold resolveStepsFuel
    by_cases h : (collectContacts cap tris).isEmpty = true
    · rw [if_pos h]
      omega
    · rw [if_neg h]
      have := ih (pushCapsule cap (collectContacts cap tris))
      omega

/-- Claim C2: for every input capsule and triangle set, the resolver's
query-and-push loop executes at most `MAX_RESOLVE_ITERS` cycles; the
shallow model is a total function structurally recursing on that fuel, so
it never retries unboundedly, and at fuel exhaustion it returns the best
achieved correction. -/
theorem resolve_loop_bounded (tris : List Triangle) (cap : Capsule) :
    resolveSteps tris cap ≤ MAX_RESOLVE_ITERS :=
  resolveStepsFuel_le tris MAX_RESOLVE_ITERS cap

theorem resolveFuel_radius (tris : List Triangle) :
    ∀ n cap last, (resolveFuel tris n cap last).1.radius = cap.radius := by
  intro n
  induction n with
  | zero => intro cap last; rfl
  | succ m ih =>
    intro cap last
    unfold resolveFuel
    by_cases h : (collectContacts cap tris).isEmpty = true
    · rw [if_pos h]
    · rw [if_neg h]
      exact ih (pushCapsule cap (collectContacts cap tris)) (collectContacts cap tris)

theorem contactOf_eq_none (cap : Capsule) (t : Triangle) (hdeg : ¬degenerate t)
    (h : contactOf cap t = none) : cap.radius ≤ segTriDist cap t := by
  unfold contactOf at h
  rw [if_neg hdeg] at h
  simp only at h
  by_cases hd : dist3 (closestPair t cap.top cap.bottom).1
      (closestPair t cap.top cap.bottom).2 < cap.radius
  · rw [if_pos hd] at h
    exact absurd h (by simp)
  · exact le_of_not_lt hd

/-- Claim C1 (amended): whenever the resolution loop has converged (the
candidate query against the corrected capsule reports no contacts), the
corrected capsule is non-penetrating: every point of its segment is at
distance at least the capsule radius (hence at least radius minus the
tolerance) from every point of every nondegenerate triangle of the set. -/
theorem resolve_converged_nonpenetrating (tris : List Triangle) (cap : Capsule)
    (hconv : (collectContacts (resolve tris cap).1 tris).isEmpty = true) :
    ∀ t ∈ tris, ¬degenerate t →
      ∀ p ∈ segPts (resolve tris cap).1.top (resolve tris cap).1.bottom,
        ∀ q ∈ triPts t, cap.radius - EPS ≤ dist3 p q ∧ cap.radius ≤ dist3 p q := by
  intro t ht hdeg p hp q hq
  have hnil : collectContacts (resolve tris cap).1 tris = [] :=
    List.isEmpty_iff.mp hconv
  have hnone : contactOf (resolve tris cap).1 t = none := by
    exact List.filterMap_eq_nil_iff.mp hnil t ht
  have hle : (resolve tris cap).1.radius ≤ segTriDist (resolve tris cap).1 t :=
    contactOf_eq_none _ t hdeg hnone
  have hrad : (resolve tris cap).1.radius = cap.radius :=
    resolveFuel_radius tris MAX_RESOLVE_ITERS cap []
  have hmin := closestPair_min t (resolve tris cap).1.top (resolve tris cap).1.bottom p hp q hq
  have hfinal : cap.radius ≤ dist3 p q := by
    rw [← hrad]
    exact le_trans hle hmin
  refine ⟨?_, hfinal⟩
  have heps : (0 : ℝ) < EPS := by norm_num [EPS]
  linarith

/-! ### A squeeze configuration refuting unconditional non-penetration -/

/-- A vertical wall triangle lying in the plane x = c. -/
noncomputable def wallTri (c : ℝ) : Triangle := ⟨(c, 0, 0), (c, 1, 0), (c, 0, 1)⟩

/-- A capsule standing on the y-axis with radius 1/2. -/
noncomputable def capSq : Capsule := ⟨(0, 1, 0), (0, 0, 0), 1 / 2⟩

/-- Two opposing walls, closer together than the capsule diameter. -/
noncomputable def trisSq : List Triangle := [wallTri (2 / 5), wallTri (-(2 / 5))]

theorem wallTri_not_degenerate (c : ℝ) : ¬degenerate (wallTri c) := by
  unfold degenerate wallTri cross3
  simp [Prod.ext_iff]

theorem triPts_wall_fst (c : ℝ) : ∀ q ∈ triPts (wallTri c), q.1 = c := by
  have hconv : Convex ℝ {v : Vec3 | v.1 = c} := by
    intro x hx y hy a b ha hb hab
    simp only [Set.mem_setOf_eq] at hx hy ⊢
    show (a • x + b • y).1 = c
    rw [Prod.fst_add, Prod.smul_fst, Prod.smul_fst, hx, hy, smul_eq_mul, smul_eq_mul]
    linear_combination c * hab
  have hsub : triPts (wallTri c) ⊆ {v : Vec3 | v.1 = c} := by
    apply convexHull_min ?_ hconv
    intro v hv
    simp only [wallTri] at hv
    rcases hv with h | h | h <;> subst h <;> rfl
  intro q hq
  exact hsub hq

theorem segPts_axis (p : Vec3) (hp : p ∈ segPts (0, 1, 0) (0, 0, 0)) :
    p.1 = 0 ∧ p.2.2 = 0 := by
  have hconv : Convex ℝ {v : Vec3 | v.1 = 0 ∧ v.2.2 = 0} := by
    intro x hx y hy a b ha hb hab
    simp only [Set.mem_setOf_eq] at hx hy ⊢
    constructor
    · show (a • x + b • y).1 = 0
      rw [Prod.fst_add, Prod.smul_fst, Prod.smul_fst, hx.1, hy.1, smul_eq_mul, smul_eq_mul]
      ring
    · show (a • x + b • y).2.2 = 0
      rw [Prod.snd_add, Prod.snd_add, Prod.smul_snd, Prod.smul_snd,
        Prod.smul_snd, Prod.smul_snd, hx.2, hy.2, smul_eq_mul, smul_eq_mul]
      ring
  have hsub : segPts (0, 1, 0) (0, 0, 0) ⊆ {v : Vec3 | v.1 = 0 ∧ v.2.2 = 0} := by
    apply convexHull_min ?_ hconv
    intro v hv
    rcases hv with h | h <;> subst h <;> exact ⟨rfl, rfl⟩
  exact hsub hp

theorem dist3_ge_abs_fst (p q : Vec3) : |p.1 - q.1| ≤ dist3 p q := by
  rw [dist3_eq, ← Real.sqrt_sq_eq_abs]
  apply Real.sqrt_le_sqrt
  nlinarith [sq_nonneg (p.2.1 - q.2.1), sq_nonneg (p.2.2 - q.2.2)]

theorem mem_segPts_bottom : ((0 : ℝ), (0 : ℝ), (0 : ℝ)) ∈ segPts (0, 1, 0) (0, 0, 0) :=
  subset_convexHull ℝ _ (by simp)

theorem mem_triPts_wall (c : ℝ) : ((c : ℝ), (0 : ℝ), (0 : ℝ)) ∈ triPts (wallTri c) :=
  subset_convexHull ℝ _ (by simp [wallTri])

theorem closestPair_wall (c : ℝ) :
    dist3 (closestPair (wallTri c) (0, 1, 0) (0, 0, 0)).1
        (closestPair (wallTri c) (0, 1, 0) (0, 0, 0)).2 = |c| ∧
    (closestPair (wallTri c) (0, 1, 0) (0, 0, 0)).1
        - (closestPair (wallTri c) (0, 1, 0) (0, 0, 0)).2 = (-c, 0, 0) := by
  have hmem := closestPair_mem (wallTri c) (0, 1, 0) (0, 0, 0)
  have hseg := segPts_axis _ hmem.1
  have htri := triPts_wall_fst c _ hmem.2
  have hub : dist3 (closestPair (wallTri c) (0, 1, 0) (0, 0, 0)).1
      (closestPair (wallTri c) (0, 1, 0) (0, 0, 0)).2 ≤ dist3 (0, 0, 0) (c, 0, 0) :=
    closestPair_min (wallTri c) (0, 1, 0) (0, 0, 0) _ mem_segPts_bottom _ (mem_triPts_wall c)
  have hubv : dist3 ((0 : ℝ), (0 : ℝ), (0 : ℝ)) ((c : ℝ), (0 : ℝ), (0 : ℝ)) = |c| := by
    rw [dist3_eq, ← Real.sqrt_sq_eq_abs]
    norm_num
  have hlb : |c| ≤ dist3 (closestPair (wallTri c) (0, 1, 0) (0, 0, 0)).1
      (closestPair (wallTri c) (0, 1, 0) (0, 0, 0)).2 := by
    have h := dist3_ge_abs_fst (closestPair (wallTri c) (0, 1, 0) (0, 0, 0)).1
      (closestPair (wallTri c) (0, 1, 0) (0, 0, 0)).2
    rwa [hseg.1, htri, zero_sub, abs_neg] at h
  have hd : dist3 (closestPair (wallTri c) (0, 1, 0) (0, 0, 0)).1
      (closestPair (wallTri c) (0, 1, 0) (0, 0, 0)).2 = |c| := by
    rw [hubv] at hub
    exact le_antisymm hub hlb
  refine ⟨hd, ?_⟩
  have hnn : (0 : ℝ) ≤ ((closestPair (wallTri c) (0, 1, 0) (0, 0, 0)).1.1
        - (closestPair (wallTri c) (0, 1, 0) (0, 0, 0)).2.1) ^ 2
      + ((closestPair (wallTri c) (0, 1, 0) (0, 0, 0)).1.2.1
        - (closestPair (wallTri c) (0, 1, 0) (0, 0, 0)).2.2.1) ^ 2
      + ((closestPair (wallTri c) (0, 1, 0) (0, 0, 0)).1.2.2
        - (closestPair (wallTri c) (0, 1, 0) (0, 0, 0)).2.2.2) ^ 2 := by positivity
  have hsq := Real.sq_sqrt hnn
  rw [← dist3_eq, hd] at hsq
  rw [sq_abs] at hsq
  rw [hseg.1, hseg.2, htri] at hsq
  have hs1 : ((closestPair (wallTri c) (0, 1, 0) (0, 0, 0)).1.2.1
      - (closestPair (wallTri c) (0, 1, 0) (0, 0, 0)).2.2.1) ^ 2 = 0 := by
    nlinarith [hsq, sq_nonneg ((0 : ℝ) - (closestPair (wallTri c) (0, 1, 0) (0, 0, 0)).2.2.2),
      sq_nonneg ((closestPair (wallTri c) (0, 1, 0) (0, 0, 0)).1.2.1
        - (closestPair (wallTri c) (0, 1, 0) (0, 0, 0)).2.2.1)]
  have hs2 : ((0 : ℝ) - (closestPair (wallTri c) (0, 1, 0) (0, 0, 0)).2.2.2) ^ 2 = 0 := by
    nlinarith [hsq, sq_nonneg ((0 : ℝ) - (closestPair (wallTri c) (0, 1, 0) (0, 0, 0)).2.2.2),
      sq_nonneg ((closestPair (wallTri c) (0, 1, 0) (0, 0, 0)).1.2.1
        - (closestPair (wallTri c) (0, 1, 0) (0, 0, 0)).2.2.1)]
  have hy1 : (closestPair (wallTri c) (0, 1, 0) (0, 0, 0)).1.2.1
      - (closestPair (wallTri c) (0, 1, 0) (0, 0, 0)).2.2.1 = 0 :=
    pow_eq_zero_iff two_ne_zero |>.mp hs1
  have hy2 : (closestPair (wallTri c) (0, 1, 0) (0, 0, 0)).2.2.2 = 0 := by
    have := pow_eq_zero_iff two_ne_zero |>.mp hs2
    linarith
  have hy : ((closestPair (wallTri c) (0, 1, 0) (0, 0, 0)).1.2.1
      - (closestPair (wallTri c) (0, 1, 0) (0, 0, 0)).2.2.1) = 0 ∧
      ((closestPair (wallTri c) (0, 1, 0) (0, 0, 0)).1.2.2
      - (closestPair (wallTri c) (0, 1, 0) (0, 0, 0)).2.2.2) = 0 := by
    refine ⟨hy1, ?_⟩
    rw [hseg.2, hy2]
    ring
  have h1 : ((closestPair (wallTri c) (0, 1, 0) (0, 0, 0)).1
      - (closestPair (wallTri c) (0, 1, 0) (0, 0, 0)).2).1 = -c := by
    rw [Prod.fst_sub, hseg.1, htri]
    ring
  have h2 : ((closestPair (wallTri c) (0, 1, 0) (0, 0, 0)).1
      - (closestPair (wallTri c) (0, 1, 0) (0, 0, 0)).2).2.1 = 0 := hy.1
  have h3 : ((closestPair (wallTri c) (0, 1, 0) (0, 0, 0)).1
      - (closestPair (wallTri c) (0, 1, 0) (0, 0, 0)).2).2.2 = 0 := hy.2
  rw [Prod.ext_iff, Prod.ext_iff]
  exact ⟨h1, h2, h3⟩

theorem contactOf_capSq_wall (c : ℝ) (h5 : |c| = 2 / 5) :
    contactOf capSq (wallTri c) = some ⟨(5 / 2 * -c, 0, 0), 1 / 10⟩ := by
  unfold contactOf
  rw [if_neg (wallTri_not_degenerate c)]
  simp only
  have hd : dist3 (closestPair (wallTri c) capSq.top capSq.bottom).1
      (closestPair (wallTri c) capSq.top capSq.bottom).2 = |c| :=
    (closestPair_wall c).1
  have hdiff : (closestPair (wallTri c) capSq.top capSq.bottom).1
      - (closestPair (wallTri c) capSq.top capSq.bottom).2 = (-c, 0, 0) :=
    (closestPair_wall c).2
  rw [hd, hdiff, h5]
  rw [if_pos (by norm_num [capSq] : (2 : ℝ) / 5 < capSq.radius)]
  have hnorm : normalize3 (-c, 0, 0) = (5 / 2 * -c, 0, 0) := by
    unfold normalize3 norm3
    have : ((-c : ℝ) ^ 2 + (0 : ℝ) ^ 2 + (0 : ℝ) ^ 2) = c ^ 2 := by ring
    rw [this, Real.sqrt_sq_eq_abs, h5, Prod.smul_mk, Prod.smul_mk]
    norm_num
  rw [hnorm]
  have hdepth : capSq.radius - 2 / 5 = (1 : ℝ) / 10 := by norm_num [capSq]
  rw [hdepth]

theorem collectContacts_capSq :
    collectContacts capSq trisSq =
      [⟨(-1, 0, 0), 1 / 10⟩, ⟨(1, 0, 0), 1 / 10⟩] := by
  unfold collectContacts trisSq
  have h1 : contactOf capSq (wallTri (2 / 5)) = some ⟨(-1, 0, 0), 1 / 10⟩ := by
    have := contactOf_capSq_wall (2 / 5) (by norm_num)
    simpa using this
  have h2 : contactOf capSq (wallTri (-(2 / 5))) = some ⟨(1, 0, 0), 1 / 10⟩ := by
    have := contactOf_capSq_wall (-(2 / 5)) (by rw [abs_neg]; norm_num)
    simpa using this
  simp [List.filterMap, h1, h2]

theorem correctionSum_capSq :
    correctionSum [⟨(-1, 0, 0), 1 / 10⟩, ⟨(1, 0, 0), 1 / 10⟩] = (0 : Vec3) := by
  unfold correctionSum
  simp only [List.map_cons, List.map_nil, List.sum_cons, List.sum_nil]
  rw [Prod.smul_mk, Prod.smul_mk, Prod.smul_mk, Prod.smul_mk]
  rw [Prod.ext_iff, Prod.ext_iff]
  norm_num

theorem pushCapsule_capSq :
    pushCapsule capSq [⟨(-1, 0, 0), 1 / 10⟩, ⟨(1, 0, 0), 1 / 10⟩] = capSq := by
  unfold pushCapsule
  rw [correctionSum_capSq, add_zero, add_zero]

theorem resolveFuel_capSq (n : ℕ) :
    ∀ last, (resolveFuel trisSq n capSq last).1 = capSq := by
  induction n with
  | zero => intro last; rfl
  | succ m ih =>
    intro last
    unfold resolveFuel
    rw [collectContacts_capSq]
    rw [if_neg (by simp)]
    rw [pushCapsule_capSq]
    exact ih _

/-- Claim C1, counterexample: a capsule of radius 1/2 squeezed between
two wall triangles in the planes x = 2/5 and x = -2/5 (well-formed:
positive radius, top above bottom).  The opposing corrections cancel, the
bounded loop exhausts its budget without moving the capsule, and the
returned capsule still penetrates: its distance to the first wall is
2/5 < 1/2 - EPS. -/
theorem resolve_nonpenetration_counterexample :
    0 < capSq.radius ∧ capSq.bottom.2.1 ≤ capSq.top.2.1 ∧
    wallTri (2 / 5) ∈ trisSq ∧ ¬degenerate (wallTri (2 / 5)) ∧
    segTriDist (resolve trisSq capSq).1 (wallTri (2 / 5)) < capSq.radius - EPS := by
  refine ⟨by norm_num [capSq], by norm_num [capSq], by simp [trisSq],
    wallTri_not_degenerate _, ?_⟩
  have h1 : (resolve trisSq capSq).1 = capSq := resolveFuel_capSq MAX_RESOLVE_ITERS []
  rw [h1]
  show dist3 (closestPair (wallTri (2 / 5)) capSq.top capSq.bottom).1
      (closestPair (wallTri (2 / 5)) capSq.top capSq.bottom).2 < capSq.radius - EPS
  have hd : dist3 (closestPair (wallTri (2 / 5)) capSq.top capSq.bottom).1
      (closestPair (wallTri (2 / 5)) capSq.top capSq.bottom).2 = |(2 : ℝ) / 5| :=
    (closestPair_wall (2 / 5)).1
  rw [hd]
  rw [show |(2 : ℝ) / 5| = 2 / 5 by norm_num]
  norm_num [capSq, EPS]

/-- A thinner capsule on the same segment, clear of a single wall. -/
noncomputable def capW : Capsule := ⟨(0, 1, 0), (0, 0, 0), 1 / 4⟩

/-- A single wall as candidate set for the witness. -/
noncomputable def trisW : List Triangle := [wallTri (2 / 5)]

theorem contactOf_capW : contactOf capW (wallTri (2 / 5)) = none := by
  unfold contactOf
  rw [if_neg (wallTri_not_degenerate _)]
  simp only
  have hd : dist3 (closestPair (wallTri (2 / 5)) capW.top capW.bottom).1
      (closestPair (wallTri (2 / 5)) capW.top capW.bottom).2 = |(2 : ℝ) / 5| :=
    (closestPair_wall (2 / 5)).1
  rw [hd]
  rw [show |(2 : ℝ) / 5| = 2 / 5 by norm_num]
  rw [if_neg (by norm_num [capW] : ¬((2 : ℝ) / 5 < capW.radius))]

theorem collectContacts_capW : collectContacts capW trisW = [] := by
  unfold collectContacts trisW
  simp [List.filterMap, contactOf_capW]

theorem resolve_capW : resolve trisW capW = (capW, []) := by
  unfold resolve MAX_RESOLVE_ITERS
  unfold resolveFuel
  rw [collectContacts_capW]
  simp

theorem resolve_converged_nonpenetrating_witness :
    (collectContacts (resolve trisW capW).1 trisW).isEmpty = true ∧
    (wallTri (2 / 5) ∈ trisW ∧ ¬degenerate (wallTri (2 / 5)) ∧
      ∀ p ∈ segPts (resolve trisW capW).1.top (resolve trisW capW).1.bottom,
        ∀ q ∈ triPts (wallTri (2 / 5)),
          capW.radius - EPS ≤ dist3 p q ∧ capW.radius ≤ dist3 p q) := by
  have hconv : (collectContacts (resolve trisW capW).1 trisW).isEmpty = true := by
    rw [resolve_capW]
    rw [show (capW, ([] : List Contact)).1 = capW from rfl]
    rw [collectContacts_capW]
    rfl
  refine ⟨hconv, by simp [trisW], wallTri_not_degenerate _, ?_⟩
  intro p hp q hq
  exact resolve_converged_nonpenetrating trisW capW hconv (wallTri (2 / 5))
    (by simp [trisW]) (wallTri_not_degenerate _) p hp q hq

/-! ### Floor classification and degenerate-triangle handling -/

/-- The fixed floor-classification threshold on the vertical component of
a contact normal. -/
noncomputable def FLOOR_THRESHOLD : ℝ := 1 / 2

open Classical in
/-- Modelled from the spec: the capsule is on the floor when some contact
normal of the final iteration has vertical component above the fixed
threshold. -/
noncomputable def onFloorOf (cts : List Contact) : Bool :=
  cts.any fun ct => decide (FLOOR_THRESHOLD < ct.normal.2.1)

/-- Claim C4: floor classification over the contacts of the final
resolver iteration.  A contact with normal exactly (0,1,0) forces
`onFloorOf` true; a ceiling contact with normal (0,-1,0) alone never
yields true; and in general `onFloorOf` is true exactly when some contact
normal's vertical component exceeds the threshold 1/2. -/
theorem onFloorOf_classification (cts : List Contact) :
    (∀ ct ∈ cts, ct.normal = ((0 : ℝ), (1 : ℝ), (0 : ℝ)) → onFloorOf cts = true) ∧
    (∀ d : ℝ, onFloorOf [⟨(0, -1, 0), d⟩] = false) ∧
    (onFloorOf cts = true ↔ ∃ ct ∈ cts, FLOOR_THRESHOLD < ct.normal.2.1) := by
  have hiff : onFloorOf cts = true ↔ ∃ ct ∈ cts, FLOOR_THRESHOLD < ct.normal.2.1 := by
    unfold onFloorOf
    rw [List.any_eq_true]
    constructor
    · rintro ⟨ct, hct, hdec⟩
      exact ⟨ct, hct, of_decide_eq_true hdec⟩
    · rintro ⟨ct, hct, hlt⟩
      exact ⟨ct, hct, decide_eq_true hlt⟩
  refine ⟨?_, ?_, hiff⟩
  · intro ct hct hn
    apply hiff.mpr
    refine ⟨ct, hct, ?_⟩
    rw [hn]
    show FLOOR_THRESHOLD < 1
    norm_num [FLOOR_THRESHOLD]
  · intro d
    unfold onFloorOf
    simp only [List.any_cons, List.any_nil, Bool.or_false]
    apply decide_eq_false
    show ¬(FLOOR_THRESHOLD < -1)
    norm_num [FLOOR_THRESHOLD]

theorem onFloorOf_classification_witness :
    onFloorOf [⟨((0 : ℝ), (1 : ℝ), (0 : ℝ)), 1 / 10⟩] = true ∧
    onFloorOf [⟨(0, -1, 0), 1 / 10⟩] = false :=
  ⟨(onFloorOf_classification [⟨((0 : ℝ), (1 : ℝ), (0 : ℝ)), 1 / 10⟩]).1
      ⟨((0 : ℝ), (1 : ℝ), (0 : ℝ)), 1 / 10⟩ (by simp) rfl,
    (onFloorOf_classification []).2.1 (1 / 10)⟩

theorem norm3_smul (a : ℝ) (v : Vec3) : norm3 (a • v) = |a| * norm3 v := by
  unfold norm3
  have h1 : (a • v).1 = a * v.1 := rfl
  have h2 : (a • v).2.1 = a * v.2.1 := rfl
  have h3 : (a • v).2.2 = a * v.2.2 := rfl
  rw [h1, h2, h3]
  rw [show (a * v.1) ^ 2 + (a * v.2.1) ^ 2 + (a * v.2.2) ^ 2
      = a ^ 2 * (v.1 ^ 2 + v.2.1 ^ 2 + v.2.2 ^ 2) by ring]
  rw [Real.sqrt_mul (sq_nonneg a), Real.sqrt_sq_eq_abs]

theorem norm3_normalize3 (v : Vec3) (h : norm3 v ≠ 0) : norm3 (normalize3 v) = 1 := by
  unfold normalize3
  rw [norm3_smul]
  rw [abs_of_nonneg (one_div_nonneg.mpr (norm3_nonneg v))]
  field_simp

open Classical in
/-- Claim C7: degenerate (zero-area) triangles are skipped during
resolution: the contact list of any candidate set equals that of the set
with the degenerate triangles filtered away; and every recorded contact
whose depth is less than the capsule radius (i.e. whose closest distance
was positive) has an exactly unit-length normal, so normalizing never
divides by zero and no non-finite normal is produced. -/
theorem degenerate_triangles_skipped (cap : Capsule) (tris : List Triangle) :
    collectContacts cap tris
        = collectContacts cap (tris.filter fun t => !decide (degenerate t)) ∧
    ∀ ct ∈ collectContacts cap tris, ct.depth < cap.radius → norm3 ct.normal = 1 := by
  constructor
  · unfold collectContacts
    induction tris with
    | nil => rfl
    | cons t ts ih =>
      by_cases hdeg : degenerate t
      · have hnone : contactOf cap t = none := by
          unfold contactOf
          rw [if_pos hdeg]
        rw [List.filter_cons_of_neg (by simp [hdeg])]
        rw [List.filterMap_cons_none hnone]
        exact ih
      · rw [List.filter_cons_of_pos (by simp [hdeg])]
        rw [List.filterMap_cons, List.filterMap_cons]
        cases hc : contactOf cap t with
        | none => exact ih
        | some ct =>
          rw [ih]
  · intro ct hct hdepth
    obtain ⟨t, ht, hc⟩ := List.mem_filterMap.mp hct
    unfold contactOf at hc
    by_cases hdeg : degenerate t
    · rw [if_pos hdeg] at hc
      exact absurd hc (by simp)
    · rw [if_neg hdeg] at hc
      simp only at hc
      by_cases hd : dist3 (closestPair t cap.top cap.bottom).1
          (closestPair t cap.top cap.bottom).2 < cap.radius
      · rw [if_pos hd] at hc
        have hctval := Option.some.inj hc
        have hnormal : ct.normal = normalize3 ((closestPair t cap.top cap.bottom).1
            - (closestPair t cap.top cap.bottom).2) := by
          rw [← hctval]
        have hdepthval : ct.depth = cap.radius - dist3 (closestPair t cap.top cap.bottom).1
            (closestPair t cap.top cap.bottom).2 := by
          rw [← hctval]
        have hpos : 0 < dist3 (closestPair t cap.top cap.bottom).1
            (closestPair t cap.top cap.bottom).2 := by
          rw [hdepthval] at hdepth
          linarith
        rw [hnormal]
        apply norm3_normalize3
        show norm3 ((closestPair t cap.top cap.bottom).1
          - (closestPair t cap.top cap.bottom).2) ≠ 0
        have : dist3 (closestPair t cap.top cap.bottom).1
            (closestPair t cap.top cap.bottom).2
            = norm3 ((closestPair t cap.top cap.bottom).1
              - (closestPair t cap.top cap.bottom).2) := rfl
        rw [this] at hpos
        exact ne_of_gt hpos
      · rw [if_neg hd] at hc
        exact absurd hc (by simp)

/-- A fully degenerate triangle (all corners coincide). -/
noncomputable def degTriW : Triangle := ⟨(0, 0, 0), (0, 0, 0), (0, 0, 0)⟩

theorem degTriW_degenerate : degenerate degTriW := by
  unfold degenerate degTriW cross3
  simp [Prod.ext_iff]

theorem degenerate_triangles_skipped_witness :
    degenerate degTriW ∧
    (⟨((-1 : ℝ), (0 : ℝ), (0 : ℝ)), 1 / 10⟩ : Contact)
        ∈ collectContacts capSq [degTriW, wallTri (2 / 5)] ∧
    (1 : ℝ) / 10 < capSq.radius ∧
    norm3 ((⟨((-1 : ℝ), (0 : ℝ), (0 : ℝ)), 1 / 10⟩ : Contact).normal) = 1 := by
  have hdegnone : contactOf capSq degTriW = none := by
    unfold contactOf
    rw [if_pos degTriW_degenerate]
  have h1 : contactOf capSq (wallTri (2 / 5)) = some ⟨(-1, 0, 0), 1 / 10⟩ := by
    have := contactOf_capSq_wall (2 / 5) (by norm_num)
    simpa using this
  have hcol : collectContacts capSq [degTriW, wallTri (2 / 5)]
      = [⟨(-1, 0, 0), 1 / 10⟩] := by
    unfold collectContacts
    rw [List.filterMap_cons_none hdegnone, List.filterMap_cons, h1]
    rfl
  have hmem : (⟨((-1 : ℝ), (0 : ℝ), (0 : ℝ)), 1 / 10⟩ : Contact)
      ∈ collectContacts capSq [degTriW, wallTri (2 / 5)] := by
    rw [hcol]
    simp
  have hrad : (1 : ℝ) / 10 < capSq.radius := by norm_num [capSq]
  exact ⟨degTriW_degenerate, hmem, hrad,
    (degenerate_triangles_skipped capSq [degTriW, wallTri (2 / 5)]).2 _ hmem hrad⟩

/-! ### Motion integrator (modelled from the spec) -/

/-- Gravitational acceleration. -/
noncomputable def GRAVITY : ℝ := 30

/-- The configured jump speed. -/
noncomputable def JUMP_SPEED : ℝ := 15

/-- Upper clamp on the per-step delta time (0.05 s). -/
noncomputable def DT_MAX : ℝ := 1 / 20

/-- The abyss threshold below which the player is reset. -/
noncomputable def ABYSS_Y : ℝ := -25

/-- The configured spawn point. -/
noncomputable def SPAWN : Vec3 := (0, 5, 0)

/-- Ground control multiplier (stronger than air control). -/
noncomputable def GROUND_CONTROL : ℝ := 25

/-- Air control multiplier. -/
noncomputable def AIR_CONTROL : ℝ := 8

/-- Exponential damping base on the ground (stronger friction). -/
noncomputable def DAMP_GROUND : ℝ := 1 / 10

/-- Exponential damping base in the air (weaker drag). -/
noncomputable def DAMP_AIR : ℝ := 3 / 5

/-- The player capsule radius. -/
noncomputable def PLAYER_RADIUS : ℝ := 1 / 2

/-- The player capsule segment height. -/
noncomputable def PLAYER_HEIGHT : ℝ := 1

/-- The per-step input snapshot. -/
structure InputFrame where
  moveForward : ℝ
  moveStrafe : ℝ
  jumpRequested : Bool
  lookYaw : ℝ
  lookPitch : ℝ

/-- The kinematic state of the player collider. -/
structure KinematicState where
  pos : Vec3
  vel : Vec3
  onFloor : Bool

/-- Modelled from the spec: input control multiplier, stronger on the
ground than in the air. -/
noncomputable def controlMult (floor : Bool) : ℝ :=
  if floor then GROUND_CONTROL else AIR_CONTROL

/-- Modelled from the spec: the exponential damping base, ground
friction higher than air drag. -/
noncomputable def dampBase (floor : Bool) : ℝ :=
  if floor then DAMP_GROUND else DAMP_AIR

/-- Modelled from the spec: desired horizontal acceleration direction,
the movement axes rotated into the look-yaw frame (vertical component
zero). -/
noncomputable def inputAccel (inp : InputFrame) : Vec3 :=
  (Real.sin inp.lookYaw * inp.moveForward + Real.cos inp.lookYaw * inp.moveStrafe,
   0,
   Real.cos inp.lookYaw * inp.moveForward - Real.sin inp.lookYaw * inp.moveStrafe)

/-- Modelled from the spec: exponential damping of the horizontal
velocity components, `velocity *= damping ^ deltaTime`. -/
noncomputable def dampVel (floor : Bool) (dt : ℝ) (v : Vec3) : Vec3 :=
  (v.1 * dampBase floor ^ dt, v.2.1, v.2.2 * dampBase floor ^ dt)

/-- Modelled from the spec, steps 1-4 of the integrator: gravity when
airborne, input acceleration, exponential damping, then the jump branch
(set vertical velocity to the jump speed and clear `onFloor`
immediately). -/
noncomputable def stepVelocity (s : KinematicState) (inp : InputFrame) (dt : ℝ) :
    KinematicState :=
  let v1 : Vec3 := if s.onFloor then s.vel else (s.vel.1, s.vel.2.1 - GRAVITY * dt, s.vel.2.2)
  let v2 : Vec3 := v1 + (controlMult s.onFloor * dt) • inputAccel inp
  let v3 : Vec3 := dampVel s.onFloor dt v2
  if inp.jumpRequested && s.onFloor then
    { pos := s.pos, vel := (v3.1, JUMP_SPEED, v3.2.2), onFloor := false }
  else
    { pos := s.pos, vel := v3, onFloor := s.onFloor }

/-- The player capsule at a given base position. -/
noncomputable def capsuleAt (pos : Vec3) : Capsule :=
  ⟨pos + (0, PLAYER_HEIGHT, 0), pos, PLAYER_RADIUS⟩

/-- Modelled from the spec, steps 6-7: adopt the corrected capsule and
the recomputed floor flag, then teleport to spawn with zero velocity when
the resulting position fell below the abyss threshold. -/
noncomputable def stepApply (s1 : KinematicState) (r : Capsule × List Contact) :
    KinematicState :=
  if r.1.bottom.2.1 < ABYSS_Y then { pos := SPAWN, vel := 0, onFloor := false }
  else { pos := r.1.bottom, vel := s1.vel, onFloor := onFloorOf r.2 }

/-- Modelled from the spec: one full integrator step: clamp the delta
time, integrate the velocity, tentatively translate, resolve against the
candidate triangles, then apply the result. -/
noncomputable def step (s : KinematicState) (inp : InputFrame) (dt : ℝ)
    (tris : List Triangle) : KinematicState :=
  stepApply (stepVelocity s inp (min dt DT_MAX))
    (resolve tris (capsuleAt ((stepVelocity s inp (min dt DT_MAX)).pos
      + (min dt DT_MAX) • (stepVelocity s inp (min dt DT_MAX)).vel)))

/-- Claim C3: with `onFloor = true` and `jumpRequested = true`, the
velocity phase of the step sets the vertical velocity to exactly the
configured jump speed and clears `onFloor` in the same step, before the
resolve pass runs. -/
theorem jump_determinism (s : KinematicState) (inp : InputFrame) (dt : ℝ)
    (hf : s.onFloor = true) (hj : inp.jumpRequested = true) :
    (stepVelocity s inp dt).vel.2.1 = JUMP_SPEED ∧
    (stepVelocity s inp dt).onFloor = false := by
  unfold stepVelocity
  rw [hf, hj]
  simp

/-- A grounded state for the jump witness. -/
noncomputable def stateJ : KinematicState := ⟨(0, 0, 0), (1, 0, 2), true⟩

/-- A jump-requesting input frame for the jump witness. -/
noncomputable def inputJ : InputFrame := ⟨0, 0, true, 0, 0⟩

theorem jump_determinism_witness :
    (stepVelocity stateJ inputJ (1 / 20)).vel.2.1 = JUMP_SPEED ∧
    (stepVelocity stateJ inputJ (1 / 20)).onFloor = false :=
  jump_determinism stateJ inputJ (1 / 20) rfl rfl

theorem dampBase_pos (floor : Bool) : 0 < dampBase floor := by
  cases floor <;> norm_num [dampBase, DAMP_GROUND, DAMP_AIR]

/-- Claim C5: the exponential damping `velocity *= damping ^ deltaTime`
is frame-rate independent: damping over two consecutive steps of `dt / 2`
equals damping over one step of `dt` exactly (hence within any small
tolerance), for every starting velocity and either damping rate. -/
theorem damping_frame_rate_independent (floor : Bool) (dt : ℝ) (v : Vec3) :
    dampVel floor (dt / 2) (dampVel floor (dt / 2) v) = dampVel floor dt v := by
  have hkey : ∀ x : ℝ, x * dampBase floor ^ (dt / 2) * dampBase floor ^ (dt / 2)
      = x * dampBase floor ^ dt := by
    intro x
    rw [mul_assoc, ← Real.rpow_add (dampBase_pos floor)]
    rw [show dt / 2 + dt / 2 = dt by ring]
  unfold dampVel
  rw [Prod.mk.injEq, Prod.mk.injEq]
  exact ⟨hkey v.1, rfl, hkey v.2.2⟩

theorem resolve_nil (cap : Capsule) : resolve [] cap = (cap, []) := by
  unfold resolve MAX_RESOLVE_ITERS resolveFuel
  rfl

theorem stepVelocity_noJump (s : KinematicState) (inp : InputFrame) (dt : ℝ)
    (hjump : inp.jumpRequested = false) :
    stepVelocity s inp dt =
      { pos := s.pos
        vel := dampVel s.onFloor dt
          (((if s.onFloor then s.vel
              else (s.vel.1, s.vel.2.1 - GRAVITY * dt, s.vel.2.2)) : Vec3)
            + (controlMult s.onFloor * dt) • inputAccel inp)
        onFloor := s.onFloor } := by
  unfold stepVelocity
  rw [hjump]
  simp

theorem stepVelocity_pos_eq (s : KinematicState) (inp : InputFrame) (dt : ℝ) :
    (stepVelocity s inp dt).pos = s.pos := by
  unfold stepVelocity
  by_cases h : (inp.jumpRequested && s.onFloor) = true <;> simp [h]

theorem stepVelocity_vel_y_nonpos (s : KinematicState) (inp : InputFrame) (dt : ℝ)
    (hjump : inp.jumpRequested = false) (hvy : s.vel.2.1 ≤ 0) (hdt : 0 ≤ dt) :
    (stepVelocity s inp dt).vel.2.1 ≤ 0 := by
  rw [stepVelocity_noJump s inp dt hjump]
  have hdamp : ∀ v : Vec3, (dampVel s.onFloor dt v).2.1 = v.2.1 := fun v => rfl
  show (dampVel s.onFloor dt _).2.1 ≤ 0
  rw [hdamp]
  have haccel : (inputAccel inp).2.1 = (0 : ℝ) := rfl
  rw [Prod.snd_add, Prod.fst_add, Prod.smul_snd, Prod.smul_fst, haccel, smul_eq_mul,
    mul_zero, add_zero]
  cases hf : s.onFloor with
  | true =>
    simp only [hf, if_true]
    exact hvy
  | false =>
    simp only [hf, Bool.false_eq_true, if_false]
    have hg : 0 ≤ GRAVITY * dt := mul_nonneg (by norm_num [GRAVITY]) hdt
    show s.vel.2.1 - GRAVITY * dt ≤ 0
    linarith

/-- Claim C6 (amended): for every state below the abyss threshold that is
not moving upward (non-positive vertical velocity, no jump request) and
with no nearby candidate geometry, the next step returns the configured
spawn point exactly with zero velocity; the model is a total function, so
no error is raised. -/
theorem abyss_recovery (s : KinematicState) (inp : InputFrame) (dt : ℝ)
    (habyss : s.pos.2.1 < ABYSS_Y) (hvy : s.vel.2.1 ≤ 0)
    (hjump : inp.jumpRequested = false) (hdt : 0 ≤ dt) :
    (step s inp dt []).pos = SPAWN ∧ (step s inp dt []).vel = 0 := by
  have hdtc0 : 0 ≤ min dt DT_MAX := le_min hdt (by norm_num [DT_MAX])
  have hvy1 : (stepVelocity s inp (min dt DT_MAX)).vel.2.1 ≤ 0 :=
    stepVelocity_vel_y_nonpos s inp (min dt DT_MAX) hjump hvy hdtc0
  have hpos1 : (stepVelocity s inp (min dt DT_MAX)).pos = s.pos :=
    stepVelocity_pos_eq s inp (min dt DT_MAX)
  unfold step
  rw [resolve_nil]
  unfold stepApply
  have hbot : ((capsuleAt ((stepVelocity s inp (min dt DT_MAX)).pos
      + (min dt DT_MAX) • (stepVelocity s inp (min dt DT_MAX)).vel), ([] : List Contact)).1).bottom
      = (stepVelocity s inp (min dt DT_MAX)).pos
        + (min dt DT_MAX) • (stepVelocity s inp (min dt DT_MAX)).vel := rfl
  rw [hbot]
  have hy : ((stepVelocity s inp (min dt DT_MAX)).pos
      + (min dt DT_MAX) • (stepVelocity s inp (min dt DT_MAX)).vel).2.1
      = s.pos.2.1 + (min dt DT_MAX) * (stepVelocity s inp (min dt DT_MAX)).vel.2.1 := by
    rw [Prod.snd_add, Prod.fst_add, Prod.smul_snd, Prod.smul_fst, smul_eq_mul, hpos1]
  have hcond : ((stepVelocity s inp (min dt DT_MAX)).pos
      + (min dt DT_MAX) • (stepVelocity s inp (min dt DT_MAX)).vel).2.1 < ABYSS_Y := by
    rw [hy]
    have : (min dt DT_MAX) * (stepVelocity s inp (min dt DT_MAX)).vel.2.1 ≤ 0 :=
      mul_nonpos_of_nonneg_of_nonpos hdtc0 hvy1
    linarith
  rw [if_pos hcond]
  exact ⟨rfl, rfl⟩

/-- A state below the abyss threshold but moving upward fast. -/
noncomputable def stateAbyss : KinematicState := ⟨(0, -26, 0), (0, 1000, 0), false⟩

/-- The zero input frame. -/
noncomputable def inputZero : InputFrame := ⟨0, 0, false, 0, 0⟩

theorem abyss_recovery_counterexample :
    stateAbyss.pos.2.1 < ABYSS_Y ∧
    (step stateAbyss inputZero (1 / 20) []).pos ≠ SPAWN ∧
    (step stateAbyss inputZero (1 / 20) []).vel ≠ 0 := by
  have hmin : min ((1 : ℝ) / 20) DT_MAX = 1 / 20 := by
    rw [DT_MAX]
    exact min_self _
  have hstep1 : stepVelocity stateAbyss inputZero (1 / 20)
      = { pos := (0, -26, 0), vel := (0, 1997 / 2, 0), onFloor := false } := by
    rw [stepVelocity_noJump stateAbyss inputZero (1 / 20) rfl]
    have hfloor : stateAbyss.onFloor = false := rfl
    rw [hfloor]
    have haccel : inputAccel inputZero = ((0 : ℝ), (0 : ℝ), (0 : ℝ)) := by
      unfold inputAccel inputZero
      norm_num
    rw [haccel]
    have hv1 : ((stateAbyss.vel.1, stateAbyss.vel.2.1 - GRAVITY * (1 / 20),
        stateAbyss.vel.2.2) : Vec3) = ((0 : ℝ), (1997 / 2 : ℝ), (0 : ℝ)) := by
      unfold stateAbyss GRAVITY
      norm_num
    simp only [Bool.false_eq_true, if_false, hv1]
    have hsmul : (controlMult false * (1 / 20)) • (((0 : ℝ), (0 : ℝ), (0 : ℝ)) : Vec3)
        = ((0 : ℝ), (0 : ℝ), (0 : ℝ)) := by
      rw [Prod.smul_mk, Prod.smul_mk]
      norm_num
    rw [hsmul]
    have hadd : (((0 : ℝ), (1997 / 2 : ℝ), (0 : ℝ)) : Vec3)
        + (((0 : ℝ), (0 : ℝ), (0 : ℝ)) : Vec3) = ((0 : ℝ), (1997 / 2 : ℝ), (0 : ℝ)) := by
      rw [Prod.mk_add_mk, Prod.mk_add_mk]
      norm_num
    rw [hadd]
    unfold dampVel
    norm_num [stateAbyss]
  have hsum : (((0 : ℝ), (-26 : ℝ), (0 : ℝ)) : Vec3)
      + ((1 : ℝ) / 20) • (((0 : ℝ), (1997 / 2 : ℝ), (0 : ℝ)) : Vec3)
      = ((0 : ℝ), (957 / 40 : ℝ), (0 : ℝ)) := by
    rw [Prod.smul_mk, Prod.smul_mk, Prod.mk_add_mk, Prod.mk_add_mk]
    norm_num
  unfold step
  rw [hmin, hstep1]
  dsimp only
  rw [hsum, resolve_nil]
  unfold stepApply capsuleAt
  dsimp only
  rw [if_neg (show ¬((957 / 40 : ℝ) < ABYSS_Y) by norm_num [ABYSS_Y])]
  refine ⟨by norm_num [stateAbyss, ABYSS_Y], ?_, ?_⟩
  · intro h
    have := congrArg (fun v : Vec3 => v.2.1) h
    simp only [SPAWN] at this
    norm_num at this
  · intro h
    have := congrArg (fun v : Vec3 => v.2.1) h
    norm_num at this

/-- A state falling below the abyss threshold. -/
noncomputable def stateFall : KinematicState := ⟨(0, -30, 0), (0, -1, 0), false⟩

theorem abyss_recovery_witness :
    stateFall.pos.2.1 < ABYSS_Y ∧ stateFall.vel.2.1 ≤ 0 ∧
    inputZero.jumpRequested = false ∧ (0 : ℝ) ≤ 1 / 20 ∧
    ((step stateFall inputZero (1 / 20) []).pos = SPAWN ∧
      (step stateFall inputZero (1 / 20) []).vel = 0) :=
  ⟨by norm_num [stateFall, ABYSS_Y], by norm_num [stateFall], rfl, by norm_num,
    abyss_recovery stateFall inputZero (1 / 20)
      (by norm_num [stateFall, ABYSS_Y]) (by norm_num [stateFall]) rfl (by norm_num)⟩
